import Mathlib

/-!
# Verification of the scene-construction / physics-engine core

Shallow embedding of the physics engine (`physicsEngine.js`): contour
sanitization, polygon area, triangle-fan decomposition, convex-hull
approximation, the per-object body construction pass, boundary walls,
the constraint builder (pendulum / rope / spring / spring-launcher), the
per-tick conveyor override and the top-level `runSimulation` entry point.

Numbers are modelled by `ℚ`.  The JavaScript source compares Euclidean
distances as `Math.sqrt(d2) > 1`; for nonnegative `d2` this is equivalent
to `d2 > 1`, which is how distances are modelled below.  `Math.round`
(halves towards +infinity) coincides with Mathlib's `round` on `ℚ`.
-/

namespace PhysicsSim

/-- A 2D point, as in the source's `{x, y}` objects (`.1` is x, `.2` is y). -/
abbrev Pt : Type := ℚ × ℚ

/-! ## Geometry primitives (helper-function region of the source) -/

/-- Cross product of two vectors based at the origin: `a.x*b.y - a.y*b.x`. -/
def crossV (a b : Pt) : ℚ := a.1 * b.2 - a.2 * b.1

/-- Orientation of the triple `(a, b, c)`: cross product of `b - a` and
`c - a`.  Positive means a left turn. -/
def orient (a b c : Pt) : ℚ := crossV (b - a) (c - a)

/-- The list of cyclically consecutive vertex pairs `(P[i], P[(i+1) % n])`,
exactly the index pattern of the `polygonArea` loop in the source. -/
def cyclicPairs (l : List Pt) : List (Pt × Pt) := l.zip (l.rotate 1)

/-- The signed shoelace sum `Σ (x[i]*y[j] - x[j]*y[i])` with `j = (i+1) % n`,
the quantity accumulated in the source's `polygonArea` loop. -/
def shoelaceSum (l : List Pt) : ℚ :=
  ((cyclicPairs l).map (fun pq => crossV pq.1 pq.2)).sum

/-- `polygonArea` from the source: `Math.abs(area) / 2` of the shoelace sum. -/
def polygonArea (l : List Pt) : ℚ := |shoelaceSum l| / 2

/-- `calculateCentroid` from the source: arithmetic mean of the vertices,
`(0,0)` for an empty list. -/
def calculateCentroid (l : List Pt) : Pt :=
  if l.length = 0 then (0, 0)
  else ((l.map Prod.fst).sum / l.length, (l.map Prod.snd).sum / l.length)

/-- `decomposeToTriangleFan` from the source: for fewer than 3 points return
no triangles, otherwise one triangle `(C, P[i], P[(i+1) % n])` per edge,
where `C` is the vertex-average centroid. -/
def decomposeToTriangleFan (l : List Pt) : List (Pt × Pt × Pt) :=
  if l.length < 3 then []
  else
    let c := calculateCentroid l
    (cyclicPairs l).map (fun pq => (c, pq.1, pq.2))

/-- `triangleCentroid` from the source: mean of the three vertices. -/
def triangleCentroid (t : Pt × Pt × Pt) : Pt :=
  ((t.1.1 + t.2.1.1 + t.2.2.1) / 3, (t.1.2 + t.2.1.2 + t.2.2.2) / 3)

/-- Area of one fan triangle, computed with the source's own area routine
applied to its three vertices. -/
def triArea (t : Pt × Pt × Pt) : ℚ := polygonArea [t.1, t.2.1, t.2.2]

/-- Signed (doubled-area) cross product of a fan triangle `(c, a, b)`:
`(a - c) × (b - c)`. -/
def triSigned (t : Pt × Pt × Pt) : ℚ := crossV (t.2.1 - t.1) (t.2.2 - t.1)

/-- Sum of the areas of the triangles of the fan decomposition. -/
def fanAreaSum (l : List Pt) : ℚ := ((decomposeToTriangleFan l).map triArea).sum

/-! ## Contour sanitization (`preprocessContour`) -/

/-- Squared Euclidean distance.  The source compares
`Math.sqrt(dist2) > 1`, equivalent to `dist2 > 1`. -/
def dist2 (a b : Pt) : ℚ := (b.1 - a.1) ^ 2 + (b.2 - a.2) ^ 2

/-- The dedup walk of `preprocessContour`: given the last kept point, keep
each subsequent point only when its distance to the last kept point
exceeds 1. -/
def sanitizeAux : Pt → List Pt → List Pt
  | _, [] => []
  | prev, p :: ps =>
    if 1 < dist2 prev p then p :: sanitizeAux p ps else sanitizeAux prev ps

/-- The dedup pass of `preprocessContour`: keep the first point
unconditionally, then walk with `sanitizeAux`. -/
def sanitize : List Pt → List Pt
  | [] => []
  | p :: ps => p :: sanitizeAux p ps

/-- `preprocessContour` from the source: lists shorter than 3 are returned
unchanged; otherwise dedup, and if fewer than 3 points survive, fall back
to the original input (the source comment: let the later logic handle it). -/
def preprocessContour (l : List Pt) : List Pt :=
  if l.length < 3 then l
  else
    let u := sanitize l
    if 3 ≤ u.length then u else l

/-! ## Idempotence lemmas for the sanitizer -/

/-- The relation kept invariant by the dedup walk: consecutive kept points
are more than 1 unit apart. -/
def FarApart (a b : Pt) : Prop := 1 < dist2 a b

instance : DecidablePred fun ab : Pt × Pt => FarApart ab.1 ab.2 := by
  intro ab; unfold FarApart; infer_instance

/-! ## Coordinate mapping -/

/-- Scaling of a backend contour point into canvas coordinates:
`Math.round(p.x * sx)`, `Math.round(p.y * sy)` (the source's `scaled` map
and the constraint pivot scaling use exactly this). -/
def scalePoint (sx sy : ℚ) (p : Pt) : Pt :=
  (((round (p.1 * sx) : ℤ) : ℚ), ((round (p.2 * sy) : ℤ) : ℚ))

/-- A whole contour scaled into canvas coordinates. -/
def scaledContour (sx sy : ℚ) (l : List Pt) : List Pt := l.map (scalePoint sx sy)

/-! ## Assoc-list model of a JavaScript object / Map used as a dictionary

Property assignment `m[k] = v` overwrites the value when the key exists and
appends a new key otherwise, so the key list stays duplicate-free and keeps
insertion order (which is what `Object.keys` and `Object.entries` observe). -/

def alookup {β : Type} (k : String) : List (String × β) → Option β
  | [] => none
  | e :: rest => if e.1 = k then some e.2 else alookup k rest

def setKey {β : Type} (m : List (String × β)) (k : String) (v : β) :
    List (String × β) :=
  match m with
  | [] => [(k, v)]
  | e :: rest => if e.1 = k then (k, v) :: rest else e :: setKey rest k v

/-! ## Scene objects and the body-construction pass of `runSimulation` -/

/-- The `parameters` object of a scene object; `none` models an absent
(undefined) field, resolved by the source's `??` defaults. -/
structure ObjParams where
  mass_kg : Option ℚ := none
  restitution : Option ℚ := none
  friction_coefficient : Option ℚ := none
  air_drag : Option ℚ := none
  conveyor_speed : Option ℚ := none
deriving DecidableEq

/-- One element of the `objects` array handed to `runSimulation`. -/
structure SceneObject where
  name : String := ""
  role : String := "dynamic"
  contour : List Pt := []
  is_concave : Bool := false
  element_type : String := ""
  params : ObjParams := {}
deriving DecidableEq

/-- Which construction strategy produced a body (or why none was). -/
inductive ObjOutcome where
  /-- `role == 'constraint'`: no body is created. -/
  | skippedRole : ObjOutcome
  /-- contour with fewer than 3 points (raw or processed): skipped. -/
  | skippedContour : ObjOutcome
  /-- convex direct body via `Bodies.fromVertices`. -/
  | builtConvex : ObjOutcome
  /-- static concave body: triangle-fan composite. -/
  | builtFan : ObjOutcome
  /-- dynamic concave body: convex-hull approximation. -/
  | builtHullDyn : ObjOutcome
  /-- fan decomposition produced no triangles: hull fallback. -/
  | builtHullFallback : ObjOutcome
deriving DecidableEq

def ObjOutcome.isBuilt : ObjOutcome → Bool
  | .skippedRole => false
  | .skippedContour => false
  | _ => true

/-- Which kind of backend body a construction produced. -/
inductive BodyKind where
  | convex : BodyKind
  | fanComposite : BodyKind
  | hull : BodyKind
deriving DecidableEq

/-- Provenance record for one constructed body: the owning scene object's
name, the registration key used for `bodiesMap` (`none` when the
construction path never registers), the strategy and a body id. -/
structure BuiltRecord where
  objName : String
  regName : Option String
  kind : BodyKind
  bodyId : ℕ
  bodyStatic : Bool
deriving DecidableEq

/-- The mutable state threaded through the `objects.forEach` loop:
`bodiesMap` (name to body), `conveyorParams` (name to speed), the
`hasStatic` flag, a fresh-id counter and the provenance of built bodies. -/
structure BuildState where
  bodiesMap : List (String × ℕ) := []
  conveyorParams : List (String × ℚ) := []
  hasStatic : Bool := false
  nextId : ℕ := 0
  built : List BuiltRecord := []
deriving DecidableEq

/-- One iteration of the `objects.forEach` body-construction loop.  Returns
the updated state together with the outcome taken for this object.
`Bodies.fromVertices` is modelled as always yielding a body. -/
def processObject (sx sy : ℚ) (st : BuildState) (obj : SceneObject) :
    BuildState × ObjOutcome :=
  if obj.role = "constraint" then (st, .skippedRole)
  else if obj.contour.length < 3 then (st, .skippedContour)
  else
    let processed := preprocessContour (scaledContour sx sy obj.contour)
    if processed.length < 3 then (st, .skippedContour)
    else
      let isStatic := obj.role = "static"
      let st1 : BuildState := { st with hasStatic := st.hasStatic || isStatic }
      if !obj.is_concave then
        -- convex direct body, registered in bodiesMap under the object name
        -- (falling back to "body-<n>" for a falsy name)
        let bodyName :=
          if obj.name = "" then "body-" ++ toString st1.bodiesMap.length
          else obj.name
        let bid := st1.nextId
        let isConveyor := obj.params.conveyor_speed.isSome
          || obj.element_type.toLower = "conveyor_belt"
        let st2 : BuildState :=
          { st1 with
            bodiesMap := setKey st1.bodiesMap bodyName bid
            nextId := bid + 1
            built := st1.built
              ++ [⟨obj.name, some bodyName, .convex, bid, isStatic⟩]
            conveyorParams :=
              if isStatic && isConveyor then
                setKey st1.conveyorParams bodyName
                  (obj.params.conveyor_speed.getD 0)
              else st1.conveyorParams }
        (st2, .builtConvex)
      else if isStatic then
        let triangles := decomposeToTriangleFan processed
        if triangles.length = 0 then
          -- decomposition failed: fall back to a convex-hull body (not
          -- registered in bodiesMap)
          ({ st1 with
              nextId := st1.nextId + 1
              built := st1.built ++ [⟨obj.name, none, .hull, st1.nextId, isStatic⟩] },
            .builtHullFallback)
        else
          -- static concave: composite of fan triangles (not registered)
          ({ st1 with
              nextId := st1.nextId + 1
              built := st1.built
                ++ [⟨obj.name, none, .fanComposite, st1.nextId, isStatic⟩] },
            .builtFan)
      else
        -- dynamic concave: convex-hull approximation (not registered; the
        -- source comment explicitly leaves bodiesMap registration
        -- unimplemented for this path)
        ({ st1 with
            nextId := st1.nextId + 1
            built := st1.built ++ [⟨obj.name, none, .hull, st1.nextId, isStatic⟩] },
          .builtHullDyn)

/-- The full body-construction pass over the `objects` array, starting from
the empty maps, also collecting the per-object outcomes in order. -/
def buildScene (sx sy : ℚ) (objects : List SceneObject) :
    BuildState × List ObjOutcome :=
  objects.foldl
    (fun acc obj =>
      let r := processObject sx sy acc.1 obj
      (r.1, acc.2 ++ [r.2]))
    ({}, [])

/-- The outcome `processObject` takes for a single object (projection). -/
def objectOutcome (sx sy : ℚ) (obj : SceneObject) : ObjOutcome :=
  (processObject sx sy {} obj).2

/-! ## Boundary walls -/

/-- A DOM-style rectangle (`left`, `top`, `width`, `height`). -/
structure RectDims where
  left : ℚ
  top : ℚ
  width : ℚ
  height : ℚ
deriving DecidableEq

/-- A `Bodies.rectangle` descriptor: centre, size, render visibility and
staticness. -/
structure RectDesc where
  cx : ℚ
  cy : ℚ
  rw : ℚ
  rh : ℚ
  visible : Bool
  isStatic : Bool
deriving DecidableEq

/-- Wall thickness from the source:
`Math.max(10, Math.floor(Math.min(width, height) * 0.02))`. -/
def wallThickness (w h : ℚ) : ℚ := max 10 ((⌊min w h * (2 / 100)⌋ : ℤ) : ℚ)

/-- The four invisible static boundary walls (top, bottom, left, right)
exactly as built in the source when `hasStatic` is false. -/
def boundaryWalls (w h : ℚ) : List RectDesc :=
  let t := wallThickness w h
  [ ⟨w / 2, -t / 2, w, t, false, true⟩,
    ⟨w / 2, h + t / 2, w, t, false, true⟩,
    ⟨-t / 2, h / 2, t, h, false, true⟩,
    ⟨w + t / 2, h / 2, t, h, false, true⟩ ]

/-! ## Constraint construction (section 4.5 of the source) -/

/-- One element of the `constraints` array.  `none` models absent
(undefined) JavaScript fields. -/
structure ConstraintSpec where
  bodyName : String := ""
  pivotName : String := ""
  pivotPoint : Pt := (0, 0)
  secondPivotName : String := ""
  secondPivotPoint : Option Pt := none
  springType : Option String := none
  constraintType : Option String := none
  stiffness : Option ℚ := none
  damping : Option ℚ := none
  length : Option ℚ := none
  springLength : Option ℚ := none
deriving DecidableEq

/-- A realized `Matter.Constraint`: each endpoint is either a body or a
fixed world point; `bodyBIsSlug` marks the launcher path where `bodyB` is
the freshly created slug body rather than a scene body. -/
structure ConDesc where
  bodyA : Option ℕ := none
  pointA : Option Pt := none
  bodyB : Option ℕ := none
  bodyBIsSlug : Bool := false
  pointB : Option Pt := none
  clen : Option ℚ := none
  stiffness : ℚ := 1
  damping : Option ℚ := none
  visible : Bool := true
deriving DecidableEq

/-- The transient "launch slug" body of the spring-launcher path
(`reducedBody` in the source). -/
structure SlugDesc where
  pos : Pt
  rw : ℚ
  rh : ℚ
  mass : ℚ
  restitution : ℚ
  friction : ℚ
  frictionAir : ℚ
  label : String
deriving DecidableEq

/-- Result of processing one constraint spec. -/
inductive COutcome where
  /-- pendulum/rope path with unresolved subject: nothing is created. -/
  | skipped : COutcome
  /-- pendulum/rope constraint. -/
  | created (con : ConDesc) : COutcome
  /-- spring_constraint path. -/
  | springCreated (con : ConDesc) : COutcome
  /-- spring_launcher path: slug body plus spring constraint. -/
  | launcherCreated (slug : SlugDesc) (con : ConDesc) : COutcome
deriving DecidableEq

/-- JavaScript `x || d` on an optional number: absent, and falsy `0`, both
give the default. -/
def orElseFalsy (o : Option ℚ) (d : ℚ) : ℚ :=
  match o with
  | some v => if v = 0 then d else v
  | none => d

/-- The source's spring-system gate: `isSpring && c.secondPivotPoint`. -/
def isSpringPath (c : ConstraintSpec) : Bool :=
  (c.springType = some "constraint" || c.springType = some "launcher")
    && c.secondPivotPoint.isSome

/-- One iteration of the `constraints.forEach` loop: builds the spring /
launcher / pendulum constraint descriptors from the name-to-body map. -/
def buildConstraint (m : List (String × ℕ)) (sx sy : ℚ) (c : ConstraintSpec) :
    COutcome :=
  if isSpringPath c then
    let firstPoint := scalePoint sx sy c.pivotPoint
    let secondPoint := scalePoint sx sy (c.secondPivotPoint.getD (0, 0))
    let firstBody := alookup c.pivotName m
    let secondBody := alookup c.secondPivotName m
    if c.springType = some "constraint" then
      .springCreated
        { bodyA := firstBody
          pointA := if firstBody.isSome then none else some firstPoint
          bodyB := secondBody
          pointB := if secondBody.isSome then none else some secondPoint
          clen := c.springLength.map (fun v => v * max sx sy)
          stiffness := orElseFalsy c.stiffness 100 / 1000
          damping := some (orElseFalsy c.damping (1 / 10))
          visible := true }
    else
      let slug : SlugDesc :=
        { pos := (firstPoint.1 + (secondPoint.1 - firstPoint.1) * (9 / 10),
                  firstPoint.2 + (secondPoint.2 - firstPoint.2) * (9 / 10))
          rw := 20, rh := 20, mass := 1 / 2, restitution := 1 / 10
          friction := 0, frictionAir := 0, label := "spring_launcher_reduced" }
      .launcherCreated slug
        { bodyA := firstBody
          pointA := if firstBody.isSome then none else some firstPoint
          bodyBIsSlug := true
          clen := c.springLength.map (fun v => v * max sx sy - 20)
          stiffness := orElseFalsy c.stiffness 200 / 1000
          damping := some (orElseFalsy c.damping (1 / 20))
          visible := false }
  else
    match alookup c.bodyName m with
    | none => .skipped
    | some subj =>
      let stiff : ℚ :=
        if c.constraintType = some "spring" then c.stiffness.getD (3 / 10)
        else if c.constraintType = some "rope" then c.stiffness.getD (9 / 10)
        else c.stiffness.getD 1
      let clen : Option ℚ :=
        c.length.bind (fun v => if v = 0 then none else some (v * max sx sy))
      match alookup c.pivotName m with
      | some pb =>
        .created { bodyA := some pb, bodyB := some subj, clen := clen
                   stiffness := stiff, visible := true }
      | none =>
        .created { pointA := some (scalePoint sx sy c.pivotPoint)
                   bodyB := some subj, clen := clen
                   stiffness := stiff, visible := true }

/-- A realized outcome whose A-endpoint is a fixed world anchor at the
given (already coordinate-mapped) point rather than a body. -/
def anchoredAtMappedPivot : COutcome → Pt → Prop
  | .skipped, _ => False
  | .created con, pt => con.bodyA = none ∧ con.pointA = some pt
  | .springCreated con, pt => con.bodyA = none ∧ con.pointA = some pt
  | .launcherCreated _ con, pt => con.bodyA = none ∧ con.pointA = some pt

/-! ## Per-tick conveyor override (`onBeforeUpdate` in the source) -/

/-- Velocity state of one body: linear x / y components plus angular. -/
structure BodyVel where
  vx : ℚ
  vy : ℚ
  av : ℚ
deriving DecidableEq

/-- Static per-body data visible to the tick hook: label, staticness and
the two name-keyed maps captured by the closure. -/
structure TickEnv where
  label : ℕ → String
  isStatic : ℕ → Bool
  bodiesMap : List (String × ℕ)
  conveyorParams : List (String × ℚ)

/-- The speed lookup of the hook: scan `Object.entries(bodiesMap)` for the
name bound to the conveyor body, then read `conveyorParams`; any failure
leaves speed = 0 (and `Number(cfg.speed || 0)` is the identity on `ℚ`). -/
def lookupConveyorSpeed (env : TickEnv) (convId : ℕ) : ℚ :=
  match env.bodiesMap.find? (fun e => e.2 == convId) with
  | none => 0
  | some e =>
    match alookup e.1 env.conveyorParams with
    | none => 0
    | some sp => sp

/-- `conveyorBody = aIsConv ? bodyA : bodyB`. -/
def convOf (env : TickEnv) (p : ℕ × ℕ) : ℕ :=
  if env.label p.1 = "conveyor" then p.1 else p.2

/-- `otherBody = aIsConv ? bodyB : bodyA`. -/
def otherOf (env : TickEnv) (p : ℕ × ℕ) : ℕ :=
  if env.label p.1 = "conveyor" then p.2 else p.1

/-- Processing of one contact pair by the hook: skip unless a body is
labelled `conveyor`; skip a static other body; otherwise set the other
body's velocity to `(speed, current vy)` and its angular velocity to 0. -/
def stepPair (env : TickEnv) (s : ℕ → BodyVel) (p : ℕ × ℕ) : ℕ → BodyVel :=
  if env.label p.1 = "conveyor" ∨ env.label p.2 = "conveyor" then
    let other := otherOf env p
    if env.isStatic other then s
    else
      let speed := lookupConveyorSpeed env (convOf env p)
      fun b => if b = other then { vx := speed, vy := (s other).vy, av := 0 } else s b
  else s

/-- The whole `beforeUpdate` hook: fold `stepPair` over `engine.pairs.list`. -/
def onBeforeUpdate (env : TickEnv) (pairs : List (ℕ × ℕ)) (s : ℕ → BodyVel) :
    ℕ → BodyVel :=
  pairs.foldl (stepPair env) s

/-! ## Top-level `runSimulation` -/

/-- What the source's `runSimulation` returns (plus the construction data
the theorems talk about): it is always a handle with a summary string. -/
structure SimHandle where
  summary : String
  width : ℚ
  height : ℚ
  scene : BuildState
  outcomes : List ObjOutcome
  cons : List COutcome
  walls : List RectDesc
deriving DecidableEq

/-- Possible results of `start()`: a simulation handle or an explicit error
result.  The source never constructs the error case. -/
inductive StartResult where
  | handle (h : SimHandle) : StartResult
  | errorResult (msg : String) : StartResult
deriving DecidableEq

/-- The options object of `runSimulation`. -/
structure SimInput where
  container : Option RectDims := none
  objects : List SceneObject := []
  constraints : List ConstraintSpec := []
  imageRect : Option RectDims := none
  naturalSize : ℚ × ℚ := (0, 0)
deriving DecidableEq

/-- The canvas size computed by `runSimulation`: the image rectangle's
size (container rectangle as fallback, `640 × 360` as final fallback),
floored, with a minimum of 1. -/
def simViewport (inp : SimInput) : ℚ × ℚ :=
  let containerRect := inp.container.getD ⟨0, 0, 640, 360⟩
  let imgRect := inp.imageRect.getD containerRect
  (max 1 ((⌊if imgRect.width = 0 then (640 : ℚ) else imgRect.width⌋ : ℤ) : ℚ),
   max 1 ((⌊if imgRect.height = 0 then (360 : ℚ) else imgRect.height⌋ : ℤ) : ℚ))

/-- The coordinate scales `sx`, `sy`: canvas size over natural size, with
1 as the guard for a zero (falsy) natural size. -/
def simScales (inp : SimInput) : ℚ × ℚ :=
  ((if inp.naturalSize.1 = 0 then 1 else (simViewport inp).1 / inp.naturalSize.1),
   (if inp.naturalSize.2 = 0 then 1 else (simViewport inp).2 / inp.naturalSize.2))

/-- `runSimulation` from the source: layout computation (with the
`640 × 360` fallbacks), body construction pass, constraint pass, optional
boundary walls, and the returned handle with its summary string. -/
def runSimulation (inp : SimInput) : StartResult :=
  let wh := simViewport inp
  let s := simScales inp
  let sc := buildScene s.1 s.2 inp.objects
  let cons := inp.constraints.map (buildConstraint sc.1.bodiesMap s.1 s.2)
  let walls := if sc.1.hasStatic then [] else boundaryWalls wh.1 wh.2
  .handle
    { summary := "模拟运行中：对象数=" ++ toString inp.objects.length
        ++ (if 0 < inp.constraints.length then
              "，约束数=" ++ toString inp.constraints.length
            else "")
      width := wh.1, height := wh.2
      scene := sc.1, outcomes := sc.2, cons := cons, walls := walls }

def isErrorResult : StartResult → Bool
  | .handle _ => false
  | .errorResult _ => true

def resultWalls : StartResult → List RectDesc
  | .handle h => h.walls
  | .errorResult _ => []

def resultSummary : StartResult → String
  | .handle h => h.summary
  | .errorResult msg => msg

def resultScene : StartResult → BuildState
  | .handle h => h.scene
  | .errorResult _ => {}

def resultWidth : StartResult → ℚ
  | .handle h => h.width
  | .errorResult _ => 0

def resultHeight : StartResult → ℚ
  | .handle h => h.height
  | .errorResult _ => 0

def resultCons : StartResult → List COutcome
  | .handle h => h.cons
  | .errorResult _ => []

/-! ## Lexical scope at the spring-launcher cleanup callback

The delayed cleanup executes `World.remove(engine.world, ...)`.  Identifier
resolution walks the callback's scope chain: the enclosing `forEach`
callback, the body of `runSimulation`, and the module scope of
`physicsEngine.js` (whose only import is the default `Matter`); there is no
browser global named `World` either. -/

/-- Module-scope bindings of `physicsEngine.js`. -/
def moduleLevelIdents : List String :=
  ["Matter", "polygonArea", "calculateCentroid", "toConvexHull",
   "decomposeToTriangleFan", "triangleCentroid", "preprocessContour",
   "runSimulation", "createConvexHullBody", "applyPhysicsProperties"]

/-- Bindings introduced in the body of `runSimulation` (destructured Matter
modules included). -/
def runSimulationScopeIdents : List String :=
  ["container", "objects", "constraints", "imageRect", "naturalSize",
   "containerRect", "imgRect", "width", "height", "offX", "offY", "sx", "sy",
   "Engine", "Render", "Runner", "Composite", "Bodies", "Vertices", "Body",
   "Events", "engine", "render", "hasStatic", "bodiesMap", "conveyorParams",
   "Constraint", "REDUCED_BODY_SIZE", "runner", "onBeforeUpdate",
   "constraintCount"]

/-- Bindings of the constraint `forEach` callback and the collision
handler enclosing the `setTimeout` cleanup. -/
def launcherCallbackIdents : List String :=
  ["c", "idx", "isSpring", "firstPoint", "secondPoint", "firstBody",
   "secondBody", "reducedBody", "springConstraint", "event", "pair"]

/-- Whether an identifier resolves in the cleanup callback's scope chain. -/
def identInScopeAtCleanup (name : String) : Bool :=
  (launcherCallbackIdents ++ runSimulationScopeIdents ++ moduleLevelIdents).contains name

/-- Evaluation result of a JavaScript snippet: a value, or an uncaught
`ReferenceError` on the named identifier. -/
inductive JsEval (α : Type) where
  | ok (val : α) : JsEval α
  | refError (ident : String) : JsEval α
deriving DecidableEq

/-- The scheduled cleanup body: `World.remove(engine.world, reducedBody);
World.remove(engine.world, springConstraint);`.  Evaluating it first
resolves the identifier `World`; if that fails the callback throws and the
world is left untouched. -/
def launcherCleanup (world : List ℕ) (slugId conId : ℕ) : JsEval (List ℕ) :=
  if identInScopeAtCleanup "World" then
    .ok (world.filter (fun i => i != slugId && i != conId))
  else .refError "World"

/-- World contents after the slug's first contact with the second endpoint
body and the 100 ms delay: the cleanup runs in a `setTimeout`, so an
uncaught exception leaves the world unchanged. -/
def worldAfterLauncherContact (world : List ℕ) (slugId conId : ℕ) : List ℕ :=
  match launcherCleanup world slugId conId with
  | .ok w => w
  | .refError _ => world

/-! ## Convex hull (`toConvexHull`)

`Matter.Vertices.hull` is code of the external Matter.js library, not of
this repository.  Modelled from the spec: the convex hull is the smallest
convex polygon containing the point set; the model below iteratively
discards points lying strictly inside a triangle of the remaining points,
which spans exactly the same convex hull as the input set.  The source's
own contribution, the integer rounding of the hull vertices, is modelled
faithfully on top. -/

/-- Strict point-in-triangle test by orientation signs (all three strictly
positive or all three strictly negative). -/
def inTriStrict (a b c p : Pt) : Bool :=
  (decide (0 < orient a b p) && decide (0 < orient b c p)
    && decide (0 < orient c a p))
  || (decide (orient a b p < 0) && decide (orient b c p < 0)
    && decide (orient c a p < 0))

/-- Whether `p` lies strictly inside a triangle formed by points of `S`. -/
def isInsideSome (S : List Pt) (p : Pt) : Bool :=
  S.any fun a => S.any fun b => S.any fun c => inTriStrict a b c p

/-- Iteratively remove a point strictly inside a triangle of the others;
the fuel bounds the number of removals. -/
def dropInner : ℕ → List Pt → List Pt
  | 0, l => l
  | n + 1, l =>
    match l.find? (fun q => isInsideSome (l.erase q) q) with
    | some q => dropInner n (l.erase q)
    | none => l

/-- Modelled from the spec: `Matter.Vertices.hull` — the convex hull of the
point list (as a sublist spanning the same convex hull). -/
def hullPoints (l : List Pt) : List Pt := dropInner l.length l

/-- The source's rounding of one hull vertex:
`{ x: Math.round(v.x), y: Math.round(v.y) }`. -/
def roundPt (p : Pt) : Pt := (((round p.1 : ℤ) : ℚ), ((round p.2 : ℤ) : ℚ))

/-- `toConvexHull` from the source: hull of the points, with every vertex
coordinate rounded to an integer. -/
def toConvexHull (l : List Pt) : List Pt := (hullPoints l).map roundPt

/-- Both coordinates are integers (rational denominator 1). -/
def isIntPt (p : Pt) : Bool := p.1.den == 1 && p.2.den == 1

/-! ## Simple-polygon predicate (for the fan-area property)

Standard exact segment-intersection test over `ℚ`; a polygon is simple when
its vertices are pairwise distinct, non-adjacent edges do not intersect at
all and cyclically adjacent edges meet only in their shared vertex. -/

/-- `p` lies on the closed segment from `a` to `b`. -/
def onSegB (a b p : Pt) : Bool :=
  decide (orient a b p = 0) && decide (min a.1 b.1 ≤ p.1)
    && decide (p.1 ≤ max a.1 b.1) && decide (min a.2 b.2 ≤ p.2)
    && decide (p.2 ≤ max a.2 b.2)

/-- The two orientations have strictly opposite signs. -/
def properCross (d1 d2 : ℚ) : Bool :=
  (decide (0 < d1) && decide (d2 < 0)) || (decide (d1 < 0) && decide (0 < d2))

/-- Closed segments `[a, b]` and `[c, d]` intersect. -/
def segsIntersect (a b c d : Pt) : Bool :=
  let d1 := orient c d a
  let d2 := orient c d b
  let d3 := orient a b c
  let d4 := orient a b d
  (properCross d1 d2 && properCross d3 d4)
  || (decide (d1 = 0) && onSegB c d a)
  || (decide (d2 = 0) && onSegB c d b)
  || (decide (d3 = 0) && onSegB a b c)
  || (decide (d4 = 0) && onSegB a b d)

/-- Edge `i` of the polygon: `(P[i], P[(i+1) % n])`. -/
def polyEdge (l : List Pt) (i : ℕ) : Pt × Pt :=
  (l.getD i (0, 0), l.getD ((i + 1) % l.length) (0, 0))

/-- For `i < j`: the edges are cyclically adjacent. -/
def cyclicAdjacent (n i j : ℕ) : Bool := (j == i + 1) || (i == 0 && j == n - 1)

/-- Adjacent edges meet only in their shared vertex: the two far endpoints
do not lie on the opposite edge. -/
def adjacentEdgesOk (l : List Pt) (i j : ℕ) : Bool :=
  let e1 := polyEdge l i
  let e2 := polyEdge l j
  if j == i + 1 then
    !(onSegB e2.1 e2.2 e1.1) && !(onSegB e1.1 e1.2 e2.2)
  else
    !(onSegB e2.1 e2.2 e1.2) && !(onSegB e1.1 e1.2 e2.1)

def pairwiseDistinct (l : List Pt) : Bool :=
  (List.range l.length).all fun i => (List.range l.length).all fun j =>
    (i == j) || !(l.getD i (0, 0) == l.getD j (0, 0))

/-- Decidable simplicity test for a polygon given by its vertex list. -/
def isSimplePolygon (l : List Pt) : Bool :=
  let n := l.length
  decide (3 ≤ n) && pairwiseDistinct l
    && ((List.range n).all fun i => (List.range n).all fun j =>
      if i < j then
        if cyclicAdjacent n i j then adjacentEdgesOk l i j
        else !(segsIntersect (polyEdge l i).1 (polyEdge l i).2
                (polyEdge l j).1 (polyEdge l j).2)
      else true)

/-! ## Concrete inputs used by the counterexamples and witnesses -/

/-- A simple concave "U" polygon (a deep notch): its vertex-average
centroid lies inside the notch, outside the polygon. -/
def Upoly : List Pt := [(0, 0), (6, 0), (6, 6), (5, 6), (5, 1), (1, 1), (1, 6), (0, 6)]

/-- A convex quadrilateral used as a same-sign fan witness. -/
def squarePoly : List Pt := [(0, 0), (4, 0), (4, 4), (0, 4)]

/-- Three points, one with a fractional y coordinate: its hull vertex gets
rounded down onto the segment of the other two. -/
def hullCexPts : List Pt := [(0, 0), (10, 0), (5, 2 / 5)]

/-- An integer point set with an interior point. -/
def hullIntPts : List Pt := [(0, 0), (4, 0), (0, 4), (1, 1)]

/-- Three coincident contour points: sanitization keeps only one, yet the
body construction still proceeds via the fallback. -/
def degenerateObj : SceneObject :=
  { name := "dot", role := "dynamic", contour := [(0, 0), (0, 0), (0, 0)] }

/-- A concave dynamic object: a body is built (hull path) but never
registered in the name map. -/
def concaveDynObj : SceneObject :=
  { name := "blob", role := "dynamic", contour := [(0, 0), (40, 0), (0, 40)]
    is_concave := true }

/-- A convex dynamic object used by witnesses. -/
def convexBallObj : SceneObject :=
  { name := "ball", role := "dynamic", contour := [(0, 0), (10, 0), (0, 10)] }

/-- An object with `role: static` but an empty contour: it produces no
body, and does not suppress the boundary walls. -/
def emptyStaticObj : SceneObject := { name := "ground", role := "static" }

/-- A static object that actually produces a body. -/
def solidStaticObj : SceneObject :=
  { name := "floor", role := "static", contour := [(0, 0), (100, 0), (0, 20)] }

def wallsCexInput : SimInput := { objects := [emptyStaticObj] }

def wallsWitnessInput : SimInput := { objects := [convexBallObj] }

def wallsStaticInput : SimInput := { objects := [solidStaticObj] }

def startCexInput : SimInput := {}

def startWitnessInput : SimInput :=
  { container := some ⟨0, 0, 200, 100⟩, objects := [] }

/-- A pendulum constraint whose subject and pivot names both fail to
resolve. -/
def orphanPendulum : ConstraintSpec :=
  { bodyName := "ghost", pivotName := "nobody", pivotPoint := (100, 50) }

/-- A pendulum constraint with a resolvable subject and an unresolved
pivot. -/
def worldAnchorPendulum : ConstraintSpec :=
  { bodyName := "ball", pivotName := "ghostpivot", pivotPoint := (100, 50) }

/-- A spring-launcher constraint between a fixed first endpoint and the
body named `target`. -/
def launcherCex : ConstraintSpec :=
  { bodyName := "spring", pivotName := "anchor", pivotPoint := (0, 0)
    secondPivotName := "target", secondPivotPoint := some (100, 0)
    springType := some "launcher", springLength := some 100 }

/-- Tick environment for the conveyor witness: body 1 is a static conveyor
registered as "belt" with speed 5; body 2 is dynamic. -/
def convEnv : TickEnv :=
  { label := fun n => if n = 1 then "conveyor" else ""
    isStatic := fun n => n == 1
    bodiesMap := [("belt", 1)]
    conveyorParams := [("belt", 5)] }

/-- Pre-tick velocities for the conveyor witness: body velocities all
`(3, 7)` with spin 2. -/
def convState : ℕ → BodyVel := fun _ => ⟨3, 7, 2⟩


/-! ## Theorems: sanitizer chain/idempotence and shoelace telescoping -/

theorem sanitizeAux_chain (l : List Pt) :
    ∀ prev : Pt, List.Chain FarApart prev (sanitizeAux prev l) := by
  induction l with
  | nil => intro prev; simp [sanitizeAux]
  | cons p ps ih =>
    intro prev
    by_cases h : 1 < dist2 prev p
    · have hfar : FarApart prev p := h
      simpa [sanitizeAux, h] using List.Chain.cons hfar (ih p)
    · simpa [sanitizeAux, h] using ih prev

theorem sanitizeAux_of_chain (l : List Pt) :
    ∀ prev : Pt, List.Chain FarApart prev l → sanitizeAux prev l = l := by
  induction l with
  | nil => intro prev _; rfl
  | cons p ps ih =>
    intro prev hch
    rcases List.chain_cons.mp hch with ⟨h1, h2⟩
    simp [sanitizeAux, FarApart] at h1 ⊢
    simp [h1, ih p h2]

theorem sanitize_sanitize (l : List Pt) : sanitize (sanitize l) = sanitize l := by
  cases l with
  | nil => rfl
  | cons p ps =>
    simp only [sanitize]
    rw [sanitizeAux_of_chain _ p (sanitizeAux_chain ps p)]

theorem preprocessContour_short (l : List Pt) (h : l.length < 3) :
    preprocessContour l = l := by
  simp [preprocessContour, h]

/-- When the input has at least 3 points, so does the output of
`preprocessContour` (either the dedup result survives with at least 3
points or the function falls back to the input). -/
theorem preprocessContour_length (l : List Pt) (h : 3 ≤ l.length) :
    3 ≤ (preprocessContour l).length := by
  unfold preprocessContour
  have h3 : ¬ l.length < 3 := by omega
  by_cases hu : 3 ≤ (sanitize l).length
  · simp [h3, hu]
  · simp [h3, hu, h]

/-! ## Shoelace telescoping (fan decomposition vs polygon area) -/

theorem crossV_sub_expand (c a b : Pt) :
    crossV (a - c) (b - c) = crossV a b - crossV a c + crossV b c := by
  simp only [crossV, Prod.fst_sub, Prod.snd_sub]
  ring

theorem crossV_add_left (x y c : Pt) :
    crossV (x + y) c = crossV x c + crossV y c := by
  simp only [crossV, Prod.fst_add, Prod.snd_add]
  ring

theorem sum_crossV_const (l : List Pt) (c : Pt) :
    (l.map (fun p => crossV p c)).sum = crossV l.sum c := by
  induction l with
  | nil => simp [crossV]
  | cons p ps ih => simp [List.sum_cons, crossV_add_left, ih]

theorem sum_map_sub_add {α : Type} (L : List α) (f g h : α → ℚ) :
    (L.map (fun x => f x - g x + h x)).sum
      = (L.map f).sum - (L.map g).sum + (L.map h).sum := by
  induction L with
  | nil => simp
  | cons x xs ih => simp [List.sum_cons, ih]; ring

/-- The telescoping identity behind the fan decomposition: for any apex `c`,
the signed cross products of the fan triangles over the cyclic edge pairs
sum to the shoelace sum of the polygon. -/
theorem fan_signed_telescope (l : List Pt) (c : Pt) :
    ((cyclicPairs l).map (fun pq => crossV (pq.1 - c) (pq.2 - c))).sum
      = shoelaceSum l := by
  unfold shoelaceSum
  have hlen : l.length ≤ (l.rotate 1).length := by simp
  have hfst : (cyclicPairs l).map Prod.fst = l := List.map_fst_zip l (l.rotate 1) hlen
  have hsnd : (cyclicPairs l).map Prod.snd = l.rotate 1 := by
    exact List.map_snd_zip l (l.rotate 1) (by simp)
  calc ((cyclicPairs l).map (fun pq => crossV (pq.1 - c) (pq.2 - c))).sum
      = ((cyclicPairs l).map
          (fun pq => crossV pq.1 pq.2 - crossV pq.1 c + crossV pq.2 c)).sum := by
        apply congrArg
        apply List.map_congr_left
        intro pq _
        exact crossV_sub_expand c pq.1 pq.2
    _ = ((cyclicPairs l).map (fun pq => crossV pq.1 pq.2)).sum
          - ((cyclicPairs l).map (fun pq => crossV pq.1 c)).sum
          + ((cyclicPairs l).map (fun pq => crossV pq.2 c)).sum :=
        sum_map_sub_add _ _ _ _
    _ = ((cyclicPairs l).map (fun pq => crossV pq.1 pq.2)).sum := by
        have e1 : ((cyclicPairs l).map (fun pq => crossV pq.1 c)).sum
            = crossV l.sum c := by
          rw [show ((cyclicPairs l).map (fun pq => crossV pq.1 c))
                = (((cyclicPairs l).map Prod.fst).map (fun p => crossV p c)) by
              simp [List.map_map, Function.comp], hfst, sum_crossV_const]
        have e2 : ((cyclicPairs l).map (fun pq => crossV pq.2 c)).sum
            = crossV (l.rotate 1).sum c := by
          rw [show ((cyclicPairs l).map (fun pq => crossV pq.2 c))
                = (((cyclicPairs l).map Prod.snd).map (fun p => crossV p c)) by
              simp [List.map_map, Function.comp], hsnd, sum_crossV_const]
        have hrot : (l.rotate 1).sum = l.sum := (l.rotate_perm 1).sum_eq
        rw [e1, e2, hrot]
        ring

theorem triArea_eq_abs_signed (t : Pt × Pt × Pt) :
    triArea t = |triSigned t| / 2 := by
  have hshoe : shoelaceSum [t.1, t.2.1, t.2.2] = triSigned t := by
    simp only [shoelaceSum, cyclicPairs, List.rotate, triSigned, crossV,
      Prod.fst_sub, Prod.snd_sub, List.zip, List.zipWith, List.map,
      List.sum_cons, List.sum_nil]
    ring
  simp [triArea, polygonArea, hshoe]

theorem list_sum_nonpos (L : List ℚ) (h : ∀ x ∈ L, x ≤ 0) : L.sum ≤ 0 := by
  induction L with
  | nil => simp
  | cons x xs ih =>
    have hx : x ≤ 0 := h x (List.mem_cons_self x xs)
    have hxs := ih (fun y hy => h y (List.mem_cons_of_mem _ hy))
    simp only [List.sum_cons]
    linarith

theorem sum_abs_of_all_nonneg (L : List ℚ) (h : ∀ x ∈ L, 0 ≤ x) :
    (L.map (fun x => |x|)).sum = |L.sum| := by
  induction L with
  | nil => simp
  | cons x xs ih =>
    have hx : 0 ≤ x := h x (List.mem_cons_self x xs)
    have hxs : ∀ y ∈ xs, 0 ≤ y := fun y hy => h y (List.mem_cons_of_mem _ hy)
    have hsum : 0 ≤ xs.sum := List.sum_nonneg hxs
    simp only [List.map, List.sum_cons]
    rw [ih hxs, abs_of_nonneg hx, abs_of_nonneg hsum,
      abs_of_nonneg (add_nonneg hx hsum)]

theorem sum_abs_of_all_nonpos (L : List ℚ) (h : ∀ x ∈ L, x ≤ 0) :
    (L.map (fun x => |x|)).sum = |L.sum| := by
  induction L with
  | nil => simp
  | cons x xs ih =>
    have hx : x ≤ 0 := h x (List.mem_cons_self x xs)
    have hxs : ∀ y ∈ xs, y ≤ 0 := fun y hy => h y (List.mem_cons_of_mem _ hy)
    have hsum : xs.sum ≤ 0 := list_sum_nonpos xs hxs
    simp only [List.map, List.sum_cons]
    rw [ih hxs, abs_of_nonpos hx, abs_of_nonpos hsum,
      abs_of_nonpos (by linarith : x + xs.sum ≤ 0)]
    ring

theorem sum_map_div (L : List ℚ) (d : ℚ) :
    (L.map (fun x => x / d)).sum = L.sum / d := by
  induction L with
  | nil => simp
  | cons x xs ih => simp [List.sum_cons, ih, add_div]

theorem shoelace_short (l : List Pt) (h : l.length < 3) : shoelaceSum l = 0 := by
  match l, h with
  | [], _ => rfl
  | [a], _ =>
    simp only [shoelaceSum, cyclicPairs, List.rotate_cons_succ, List.rotate_zero,
      List.nil_append, List.cons_append, List.zip, List.zipWith,
      List.map, List.sum_cons, List.sum_nil, crossV]
    ring
  | [a, b], _ =>
    simp only [shoelaceSum, cyclicPairs, List.rotate_cons_succ, List.rotate_zero,
      List.nil_append, List.cons_append, List.zip, List.zipWith,
      List.map, List.sum_cons, List.sum_nil, crossV]
    ring


/-! ## Claim C10 — sanitization is idempotent -/

/-- C10: Contour sanitization is idempotent: for every point sequence,
applying `preprocessContour` to its own output returns that output
unchanged. -/
theorem sanitize_idempotent (l : List Pt) :
    preprocessContour (preprocessContour l) = preprocessContour l := by
  by_cases h : l.length < 3
  · have hpc : preprocessContour l = l := preprocessContour_short l h
    rw [hpc]
    exact hpc
  · by_cases hu : 3 ≤ (sanitize l).length
    · have hpc : preprocessContour l = sanitize l := by
        unfold preprocessContour
        simp [h, hu]
      have h2 : ¬ (sanitize l).length < 3 := by omega
      rw [hpc]
      unfold preprocessContour
      rw [sanitize_sanitize]
      simp [h2, hu]
    · have hpc : preprocessContour l = l := by
        unfold preprocessContour
        simp [h, hu]
      rw [hpc]
      exact hpc

/-! ## Claim C8 — triangle-fan area vs shoelace area -/

/-- C8 counterexample: for the simple concave polygon `Upoly` the sum of
the fan triangle areas is 45 while the shoelace polygon area is 16 — the
gap of 29 is exact rational arithmetic, far beyond any floating-point
tolerance (all values involved are dyadic, so doubles compute the same). -/
theorem fan_area_cex :
    isSimplePolygon Upoly = true ∧ 3 ≤ Upoly.length
      ∧ fanAreaSum Upoly = 45 ∧ polygonArea Upoly = 16
      ∧ 1 < |fanAreaSum Upoly - polygonArea Upoly| := by
  refine ⟨by with_unfolding_all rfl, by decide, by with_unfolding_all rfl,
    by with_unfolding_all rfl, by with_unfolding_all decide⟩

/-- C8 amended: the fan-area sum equals the shoelace area whenever all fan
triangles carry the same orientation sign (in particular for every polygon
that is star-shaped from its vertex average, hence for every convex
polygon); for general simple polygons the fan sum can strictly exceed the
area, as `fan_area_cex` shows.  The underlying signed identity
(`fan_signed_telescope`) holds for every polygon. -/
theorem fan_area_amended (l : List Pt)
    (h : (∀ t ∈ decomposeToTriangleFan l, 0 ≤ triSigned t)
        ∨ (∀ t ∈ decomposeToTriangleFan l, triSigned t ≤ 0)) :
    fanAreaSum l = polygonArea l := by
  by_cases hlen : l.length < 3
  · simp [fanAreaSum, decomposeToTriangleFan, hlen, polygonArea,
      shoelace_short l hlen]
  · have hfan : decomposeToTriangleFan l
        = (cyclicPairs l).map (fun pq => (calculateCentroid l, pq.1, pq.2)) := by
      unfold decomposeToTriangleFan
      simp [hlen]
    have hsign :
        (∀ x ∈ (cyclicPairs l).map
            (fun pq => crossV (pq.1 - calculateCentroid l) (pq.2 - calculateCentroid l)),
          0 ≤ x)
        ∨ (∀ x ∈ (cyclicPairs l).map
            (fun pq => crossV (pq.1 - calculateCentroid l) (pq.2 - calculateCentroid l)),
          x ≤ 0) := by
      rcases h with h | h
      · left
        intro x hx
        rcases List.mem_map.mp hx with ⟨pq, hpq, rfl⟩
        have := h (calculateCentroid l, pq.1, pq.2)
          (by rw [hfan]; exact List.mem_map.mpr ⟨pq, hpq, rfl⟩)
        simpa [triSigned] using this
      · right
        intro x hx
        rcases List.mem_map.mp hx with ⟨pq, hpq, rfl⟩
        have := h (calculateCentroid l, pq.1, pq.2)
          (by rw [hfan]; exact List.mem_map.mpr ⟨pq, hpq, rfl⟩)
        simpa [triSigned] using this
    calc fanAreaSum l
        = ((cyclicPairs l).map
            (fun pq => |crossV (pq.1 - calculateCentroid l) (pq.2 - calculateCentroid l)| / 2)).sum := by
          unfold fanAreaSum
          rw [hfan, List.map_map]
          apply congrArg
          apply List.map_congr_left
          intro pq _
          simp only [Function.comp]
          rw [triArea_eq_abs_signed]
          rfl
      _ = (((cyclicPairs l).map
            (fun pq => |crossV (pq.1 - calculateCentroid l) (pq.2 - calculateCentroid l)|)).map
              (fun x => x / 2)).sum := by
          rw [List.map_map]
          rfl
      _ = ((cyclicPairs l).map
            (fun pq => |crossV (pq.1 - calculateCentroid l) (pq.2 - calculateCentroid l)|)).sum / 2 :=
          sum_map_div _ _
      _ = (((cyclicPairs l).map
            (fun pq => crossV (pq.1 - calculateCentroid l) (pq.2 - calculateCentroid l))).map
              (fun x => |x|)).sum / 2 := by
          rw [List.map_map]
          rfl
      _ = |((cyclicPairs l).map
            (fun pq => crossV (pq.1 - calculateCentroid l) (pq.2 - calculateCentroid l))).sum| / 2 := by
          rcases hsign with hs | hs
          · rw [sum_abs_of_all_nonneg _ hs]
          · rw [sum_abs_of_all_nonpos _ hs]
      _ = |shoelaceSum l| / 2 := by rw [fan_signed_telescope]
      _ = polygonArea l := rfl

/-- C8 witness: for the convex square all fan triangles share a sign, and
the fan-area sum equals the polygon area. -/
theorem fan_area_amended_witness :
    (decomposeToTriangleFan squarePoly).all (fun t => decide (0 ≤ triSigned t)) = true
      ∧ fanAreaSum squarePoly = polygonArea squarePoly := by
  constructor
  · with_unfolding_all rfl
  · exact fan_area_amended squarePoly (Or.inl (by with_unfolding_all decide))

/-! ## Claim C2 — degenerate contour handling -/

/-- C2 counterexample: for a contour of three coincident points, the
scaled-and-sanitized sequence has a single point (fewer than 3), yet the
object is not skipped: `preprocessContour` falls back to the unsanitized
contour and a convex body construction is still attempted. -/
theorem contour_skip_cex :
    (sanitize (scaledContour 1 1 degenerateObj.contour)).length < 3
      ∧ degenerateObj.role ≠ "constraint"
      ∧ objectOutcome 1 1 degenerateObj = ObjOutcome.builtConvex := by
  refine ⟨by with_unfolding_all decide, by decide, by with_unfolding_all rfl⟩

/-- C2 amended: for a non-constraint object, a body is skipped (silently,
with a diagnostic and no error) exactly when the raw contour has fewer
than 3 points; when the sanitized sequence drops below 3 points the
sanitizer falls back to the full scaled contour, so a body is still
attempted for every raw contour of at least 3 points. -/
theorem contour_skip_amended (sx sy : ℚ) (obj : SceneObject)
    (hrole : obj.role ≠ "constraint") :
    (obj.contour.length < 3 → objectOutcome sx sy obj = ObjOutcome.skippedContour)
      ∧ (3 ≤ obj.contour.length → (objectOutcome sx sy obj).isBuilt = true) := by
  constructor
  · intro hlen
    unfold objectOutcome processObject
    simp [hrole, hlen]
  · intro hlen
    have h1 : ¬ obj.contour.length < 3 := by omega
    have h2 : 3 ≤ (preprocessContour (scaledContour sx sy obj.contour)).length := by
      apply preprocessContour_length
      simpa [scaledContour] using hlen
    have h3 : ¬ (preprocessContour (scaledContour sx sy obj.contour)).length < 3 := by
      omega
    unfold objectOutcome processObject
    cases hic : obj.is_concave with
    | false =>
      simp [hrole, h1, h3, hic, ObjOutcome.isBuilt]
    | true =>
      by_cases hs : obj.role = "static"
      · by_cases ht :
          (decomposeToTriangleFan (preprocessContour (scaledContour sx sy obj.contour))).length = 0
        · simp [hrole, h1, h3, hic, hs, ht, ObjOutcome.isBuilt]
        · simp [hrole, h1, h3, hic, hs, ht, ObjOutcome.isBuilt]
      · simp [hrole, h1, h3, hic, hs, ObjOutcome.isBuilt]

/-- C2 witness: an empty static contour is skipped; a 3-point contour
builds. -/
theorem contour_skip_amended_witness :
    objectOutcome 1 1 emptyStaticObj = ObjOutcome.skippedContour
      ∧ (objectOutcome 1 1 convexBallObj).isBuilt = true :=
  ⟨(contour_skip_amended 1 1 emptyStaticObj (by decide)).1 (by decide),
   (contour_skip_amended 1 1 convexBallObj (by decide)).2 (by decide)⟩

/-! ## Claim C1 — per-tick conveyor override -/

theorem stepPair_vy (env : TickEnv) (s : ℕ → BodyVel) (q : ℕ × ℕ) (b : ℕ) :
    ((stepPair env s q) b).vy = (s b).vy := by
  unfold stepPair
  by_cases h : env.label q.1 = "conveyor" ∨ env.label q.2 = "conveyor"
  · rw [if_pos h]
    by_cases hs : env.isStatic (otherOf env q)
    · simp [hs]
    · simp only [hs, Bool.false_eq_true, if_false]
      by_cases hb : b = otherOf env q
      · simp [hb]
      · simp [hb]
  · rw [if_neg h]

theorem onBeforeUpdate_vy (env : TickEnv) (pairs : List (ℕ × ℕ)) :
    ∀ (s : ℕ → BodyVel) (b : ℕ),
      ((onBeforeUpdate env pairs s) b).vy = (s b).vy := by
  induction pairs with
  | nil => intro s b; rfl
  | cons q qs ih =>
    intro s b
    show ((onBeforeUpdate env qs (stepPair env s q)) b).vy = (s b).vy
    rw [ih (stepPair env s q) b, stepPair_vy]

theorem stepPair_av_cases (env : TickEnv) (s : ℕ → BodyVel) (q : ℕ × ℕ) (b : ℕ) :
    ((stepPair env s q) b).av = (s b).av ∨ ((stepPair env s q) b).av = 0 := by
  unfold stepPair
  by_cases h : env.label q.1 = "conveyor" ∨ env.label q.2 = "conveyor"
  · rw [if_pos h]
    by_cases hs : env.isStatic (otherOf env q)
    · simp [hs]
    · simp only [hs, Bool.false_eq_true, if_false]
      by_cases hb : b = otherOf env q
      · simp [hb]
      · simp [hb]
  · rw [if_neg h]
    left
    rfl

theorem onBeforeUpdate_av_zero (env : TickEnv) (pairs : List (ℕ × ℕ)) :
    ∀ (s : ℕ → BodyVel) (b : ℕ), (s b).av = 0 →
      ((onBeforeUpdate env pairs s) b).av = 0 := by
  induction pairs with
  | nil => intro s b h; exact h
  | cons q qs ih =>
    intro s b h
    show ((onBeforeUpdate env qs (stepPair env s q)) b).av = 0
    apply ih
    rcases stepPair_av_cases env s q b with hc | hc
    · rw [hc]; exact h
    · exact hc

/-- Processing a pair with exactly one conveyor body and a non-static
other body sets the other body's velocity to `(speed, old vy)` and its
angular velocity to 0, for any pre-state. -/
theorem stepPair_override (env : TickEnv) (p : ℕ × ℕ)
    (hone : (env.label p.1 = "conveyor" ∧ env.label p.2 ≠ "conveyor")
        ∨ (env.label p.1 ≠ "conveyor" ∧ env.label p.2 = "conveyor"))
    (hdyn : env.isStatic (otherOf env p) = false) (t : ℕ → BodyVel) :
    ((stepPair env t p) (otherOf env p)).vx
        = lookupConveyorSpeed env (convOf env p)
      ∧ ((stepPair env t p) (otherOf env p)).vy = (t (otherOf env p)).vy
      ∧ ((stepPair env t p) (otherOf env p)).av = 0 := by
  have hcond : env.label p.1 = "conveyor" ∨ env.label p.2 = "conveyor" := by
    rcases hone with ⟨h, _⟩ | ⟨_, h⟩
    · exact Or.inl h
    · exact Or.inr h
  unfold stepPair
  rw [if_pos hcond]
  simp only [hdyn, Bool.false_eq_true, if_false]
  simp

/-- C1: on a tick, for a contact pair in which exactly one body is tagged
`conveyor` and the other is non-static, the hook's processing of that pair
sets the other body's horizontal velocity to exactly the conveyor's
configured (looked-up) speed and its angular velocity to exactly 0,
regardless of the pre-state; and over the whole hook the other body's
vertical velocity is unchanged and its angular velocity ends at 0. -/
theorem conveyor_tick_override (env : TickEnv) (pairs : List (ℕ × ℕ))
    (s : ℕ → BodyVel) (p : ℕ × ℕ) (v : ℚ) (hmem : p ∈ pairs)
    (hone : (env.label p.1 = "conveyor" ∧ env.label p.2 ≠ "conveyor")
        ∨ (env.label p.1 ≠ "conveyor" ∧ env.label p.2 = "conveyor"))
    (hdyn : env.isStatic (otherOf env p) = false)
    (hspeed : lookupConveyorSpeed env (convOf env p) = v) :
    (∀ t : ℕ → BodyVel,
        ((stepPair env t p) (otherOf env p)).vx = v
        ∧ ((stepPair env t p) (otherOf env p)).vy = (t (otherOf env p)).vy
        ∧ ((stepPair env t p) (otherOf env p)).av = 0)
      ∧ ((onBeforeUpdate env pairs s) (otherOf env p)).vy = (s (otherOf env p)).vy
      ∧ ((onBeforeUpdate env pairs s) (otherOf env p)).av = 0 := by
  refine ⟨fun t => ?_, onBeforeUpdate_vy env pairs s _, ?_⟩
  · rcases stepPair_override env p hone hdyn t with ⟨h1, h2, h3⟩
    exact ⟨by rw [h1, hspeed], h2, h3⟩
  · rcases List.append_of_mem hmem with ⟨l1, l2, rfl⟩
    unfold onBeforeUpdate
    rw [List.foldl_append]
    show ((onBeforeUpdate env l2 _) _).av = 0
    apply onBeforeUpdate_av_zero
    show ((stepPair env (List.foldl (stepPair env) s l1) p) (otherOf env p)).av = 0
    exact (stepPair_override env p hone hdyn _).2.2

/-- C1 witness: conveyor body 1 (speed 5) in contact with dynamic body 2
whose pre-tick velocity is `(3, 7)` with spin 2; after the pair step the
velocity is `(5, 7)` with spin 0, and over the whole hook `vy` stays 7 and
the spin ends at 0. -/
theorem conveyor_tick_override_witness :
    ((stepPair convEnv convState (1, 2)) (otherOf convEnv (1, 2))).vx = 5
      ∧ ((stepPair convEnv convState (1, 2)) (otherOf convEnv (1, 2))).vy
          = (convState (otherOf convEnv (1, 2))).vy
      ∧ ((onBeforeUpdate convEnv [(1, 2)] convState) (otherOf convEnv (1, 2))).av = 0 :=
  have h := conveyor_tick_override convEnv [(1, 2)] convState (1, 2) 5
    (List.mem_singleton.mpr rfl)
    (Or.inl (by constructor <;> with_unfolding_all decide))
    (by with_unfolding_all rfl) (by with_unfolding_all rfl)
  ⟨(h.1 convState).1, (h.1 convState).2.1, h.2.2⟩

/-! ## Assoc-list lemmas -/

theorem alookup_setKey_self {β : Type} (m : List (String × β)) (k : String) (v : β) :
    alookup k (setKey m k v) = some v := by
  induction m with
  | nil => simp [setKey, alookup]
  | cons e rest ih =>
    by_cases he : e.1 = k
    · simp [setKey, he, alookup]
    · simp [setKey, he, alookup, ih]

theorem alookup_setKey_ne {β : Type} (m : List (String × β)) (k k2 : String) (v : β)
    (h : k2 ≠ k) : alookup k2 (setKey m k v) = alookup k2 m := by
  induction m with
  | nil =>
    show (if k = k2 then some v else alookup k2 ([] : List (String × β)))
        = alookup k2 ([] : List (String × β))
    rw [if_neg (Ne.symm h)]
  | cons e rest ih =>
    show alookup k2 (if e.1 = k then (k, v) :: rest else e :: setKey rest k v)
        = alookup k2 (e :: rest)
    by_cases he : e.1 = k
    · rw [if_pos he]
      show (if k = k2 then some v else alookup k2 rest)
          = (if e.1 = k2 then some e.2 else alookup k2 rest)
      rw [if_neg (Ne.symm h), if_neg (by rw [he]; exact Ne.symm h)]
    · rw [if_neg he]
      show (if e.1 = k2 then some e.2 else alookup k2 (setKey rest k v))
          = (if e.1 = k2 then some e.2 else alookup k2 rest)
      rw [ih]

/-! ## Claim C3 — name-to-body registration -/

theorem exists_append_none_record (built : List BuiltRecord) (rec : BuiltRecord)
    (hrec : rec.regName = none) (n : String) :
    (∃ r, (r ∈ built ∨ r = rec) ∧ r.regName = some n)
      ↔ ∃ r ∈ built, r.regName = some n := by
  constructor
  · rintro ⟨r, hr | rfl, hreg⟩
    · exact ⟨r, hr, hreg⟩
    · rw [hrec] at hreg
      cases hreg
  · rintro ⟨r, hr, hreg⟩
    exact ⟨r, Or.inl hr, hreg⟩

/-- One `processObject` step preserves the correspondence between
`bodiesMap` keys and the registration names of the built records. -/
theorem processObject_regkeys (sx sy : ℚ) (st : BuildState) (obj : SceneObject)
    (hinv : ∀ n, (alookup n st.bodiesMap).isSome = true
        ↔ ∃ r ∈ st.built, r.regName = some n) :
    ∀ n, (alookup n (processObject sx sy st obj).1.bodiesMap).isSome = true
      ↔ ∃ r ∈ (processObject sx sy st obj).1.built, r.regName = some n := by
  intro n
  unfold processObject
  by_cases h1 : obj.role = "constraint"
  · simp only [h1, if_true]
    exact hinv n
  · by_cases h2 : obj.contour.length < 3
    · simp only [h1, if_false, h2, if_true]
      exact hinv n
    · by_cases h3 : (preprocessContour (scaledContour sx sy obj.contour)).length < 3
      · simp only [h1, if_false, h2, h3, if_true]
        exact hinv n
      · cases hic : obj.is_concave with
        | true =>
          by_cases hs : obj.role = "static"
          · by_cases ht : (decomposeToTriangleFan
                (preprocessContour (scaledContour sx sy obj.contour))).length = 0
            · simp [h1, h2, h3, hic, hs, ht]
              rw [exists_append_none_record _ _ rfl n]
              exact hinv n
            · simp [h1, h2, h3, hic, hs, ht]
              rw [exists_append_none_record _ _ rfl n]
              exact hinv n
          · simp [h1, h2, h3, hic, hs]
            rw [exists_append_none_record _ _ rfl n]
            exact hinv n
        | false =>
          simp only [h1, if_false, h2, h3, hic, Bool.not_false, if_true]
          by_cases hn : n = (if obj.name = ""
              then "body-" ++ toString st.bodiesMap.length else obj.name)
          · rw [← hn, alookup_setKey_self]
            simp only [Option.isSome_some, true_iff]
            refine ⟨⟨obj.name, some n, BodyKind.convex, st.nextId,
              decide (obj.role = "static")⟩, ?_, rfl⟩
            simp [List.mem_append]
          · rw [alookup_setKey_ne _ _ _ _ hn, hinv n]
            constructor
            · rintro ⟨r, hr, hreg⟩
              exact ⟨r, by simp [List.mem_append, hr], hreg⟩
            · rintro ⟨r, hr, hreg⟩
              rcases List.mem_append.mp hr with hr | hr
              · exact ⟨r, hr, hreg⟩
              · rcases List.mem_singleton.mp hr with rfl
                simp only [Option.some.injEq] at hreg
                exact absurd hreg.symm hn

/-- One `processObject` step only appends records whose registration name
is present exactly for the convex path. -/
theorem processObject_reg_convex (sx sy : ℚ) (st : BuildState) (obj : SceneObject)
    (hinv : ∀ r ∈ st.built, r.regName.isSome = true ↔ r.kind = BodyKind.convex) :
    ∀ r ∈ (processObject sx sy st obj).1.built,
      r.regName.isSome = true ↔ r.kind = BodyKind.convex := by
  intro r hr
  unfold processObject at hr
  by_cases h1 : obj.role = "constraint"
  · simp only [h1, if_true] at hr
    exact hinv r hr
  · by_cases h2 : obj.contour.length < 3
    · simp only [h1, if_false, h2, if_true] at hr
      exact hinv r hr
    · by_cases h3 : (preprocessContour (scaledContour sx sy obj.contour)).length < 3
      · simp only [h1, if_false, h2, h3, if_true] at hr
        exact hinv r hr
      · cases hic : obj.is_concave with
        | true =>
          by_cases hs : obj.role = "static"
          · by_cases ht : (decomposeToTriangleFan
                (preprocessContour (scaledContour sx sy obj.contour))).length = 0
            · simp [h1, h2, h3, hic, hs, ht] at hr
              rcases hr with hr | rfl
              · exact hinv r hr
              · simp
            · simp [h1, h2, h3, hic, hs, ht] at hr
              rcases hr with hr | rfl
              · exact hinv r hr
              · simp
          · simp [h1, h2, h3, hic, hs] at hr
            rcases hr with hr | rfl
            · exact hinv r hr
            · simp
        | false =>
          simp [h1, h2, h3, hic] at hr
          rcases hr with hr | rfl
          · exact hinv r hr
          · simp

theorem foldl_scene_regkeys (sx sy : ℚ) (objects : List SceneObject) :
    ∀ acc : BuildState × List ObjOutcome,
      (∀ n, (alookup n acc.1.bodiesMap).isSome = true
          ↔ ∃ r ∈ acc.1.built, r.regName = some n) →
      ∀ n,
        (alookup n (objects.foldl
            (fun acc obj =>
              let r := processObject sx sy acc.1 obj
              (r.1, acc.2 ++ [r.2])) acc).1.bodiesMap).isSome = true
          ↔ ∃ r ∈ (objects.foldl
              (fun acc obj =>
                let r := processObject sx sy acc.1 obj
                (r.1, acc.2 ++ [r.2])) acc).1.built, r.regName = some n := by
  induction objects with
  | nil => intro acc h n; exact h n
  | cons o os ih =>
    intro acc h n
    exact ih _ (processObject_regkeys sx sy acc.1 o h) n

theorem foldl_scene_reg_convex (sx sy : ℚ) (objects : List SceneObject) :
    ∀ acc : BuildState × List ObjOutcome,
      (∀ r ∈ acc.1.built, r.regName.isSome = true ↔ r.kind = BodyKind.convex) →
      ∀ r ∈ (objects.foldl
          (fun acc obj =>
            let r := processObject sx sy acc.1 obj
            (r.1, acc.2 ++ [r.2])) acc).1.built,
        r.regName.isSome = true ↔ r.kind = BodyKind.convex := by
  induction objects with
  | nil => intro acc h r hr; exact h r hr
  | cons o os ih =>
    intro acc h r hr
    exact ih _ (processObject_reg_convex sx sy acc.1 o h) r hr

/-- C3 counterexample: for the concave dynamic object `blob` a hull body
is built (one built record), but nothing is registered under `"blob"` in
the name-to-handle map — a later constraint naming `blob` cannot resolve
it. -/
theorem body_registration_cex :
    (buildScene 1 1 [concaveDynObj]).1.built
        = [⟨"blob", none, BodyKind.hull, 0, false⟩]
      ∧ alookup "blob" (buildScene 1 1 [concaveDynObj]).1.bodiesMap = none
      ∧ (buildScene 1 1 [concaveDynObj]).1.bodiesMap = [] := by
  refine ⟨by with_unfolding_all rfl, by with_unfolding_all rfl,
    by with_unfolding_all rfl⟩

/-- C3 amended: a name resolves in the SceneGraph's name-to-handle map
exactly when some body was built for it through the convex direct path;
bodies built through the concave paths (triangle-fan composite or convex
hull) are never registered. -/
theorem body_registration_amended (sx sy : ℚ) (objects : List SceneObject) :
    (∀ n, (alookup n (buildScene sx sy objects).1.bodiesMap).isSome = true
        ↔ ∃ r ∈ (buildScene sx sy objects).1.built, r.regName = some n)
      ∧ (∀ r ∈ (buildScene sx sy objects).1.built,
          r.regName.isSome = true ↔ r.kind = BodyKind.convex) := by
  constructor
  · exact foldl_scene_regkeys sx sy objects ({}, [])
      (by intro n; simp [alookup])
  · exact foldl_scene_reg_convex sx sy objects ({}, [])
      (by intro r hr; simp at hr)

/-! ## Claim C4 — boundary walls -/

theorem processObject_hasStatic (sx sy : ℚ) (st : BuildState) (obj : SceneObject) :
    ((processObject sx sy st obj).1.hasStatic = true)
      ↔ (st.hasStatic = true ∨ (obj.role = "static" ∧ 3 ≤ obj.contour.length)) := by
  unfold processObject
  by_cases h1 : obj.role = "constraint"
  · have hns : ¬ obj.role = "static" := by rw [h1]; decide
    simp [h1, hns]
  · by_cases h2 : obj.contour.length < 3
    · have hn3 : ¬ 3 ≤ obj.contour.length := by omega
      simp [h1, h2, hn3]
    · have hlen : 3 ≤ obj.contour.length := by omega
      have h3 : ¬ (preprocessContour (scaledContour sx sy obj.contour)).length < 3 := by
        have := preprocessContour_length (scaledContour sx sy obj.contour)
          (by simpa [scaledContour] using hlen)
        omega
      cases hic : obj.is_concave with
      | false =>
        simp [h1, h2, h3, hic, hlen, Bool.or_eq_true, decide_eq_true_eq]
      | true =>
        by_cases hs : obj.role = "static"
        · by_cases ht : (decomposeToTriangleFan
              (preprocessContour (scaledContour sx sy obj.contour))).length = 0
          · simp [h1, h2, h3, hic, hs, ht, hlen, Bool.or_eq_true, decide_eq_true_eq]
          · simp [h1, h2, h3, hic, hs, ht, hlen, Bool.or_eq_true, decide_eq_true_eq]
        · simp [h1, h2, h3, hic, hs, hlen, Bool.or_eq_true, decide_eq_true_eq]

theorem foldl_scene_hasStatic (sx sy : ℚ) (objects : List SceneObject) :
    ∀ acc : BuildState × List ObjOutcome,
      ((objects.foldl
          (fun acc obj =>
            let r := processObject sx sy acc.1 obj
            (r.1, acc.2 ++ [r.2])) acc).1.hasStatic = true
        ↔ acc.1.hasStatic = true
            ∨ ∃ obj ∈ objects, obj.role = "static" ∧ 3 ≤ obj.contour.length) := by
  induction objects with
  | nil =>
    intro acc
    simp
  | cons o os ih =>
    intro acc
    rw [List.foldl_cons, ih _]
    dsimp only
    rw [processObject_hasStatic]
    constructor
    · rintro ((h | h) | ⟨obj, hm, hp⟩)
      · exact Or.inl h
      · exact Or.inr ⟨o, List.mem_cons_self o os, h⟩
      · exact Or.inr ⟨obj, List.mem_cons_of_mem _ hm, hp⟩
    · rintro (h | ⟨obj, hm, hp⟩)
      · exact Or.inl (Or.inl h)
      · rcases List.mem_cons.mp hm with rfl | hm
        · exact Or.inl (Or.inr hp)
        · exact Or.inr ⟨obj, hm, hp⟩

theorem buildScene_hasStatic (sx sy : ℚ) (objects : List SceneObject) :
    ((buildScene sx sy objects).1.hasStatic = true
      ↔ ∃ obj ∈ objects, obj.role = "static" ∧ 3 ≤ obj.contour.length) := by
  unfold buildScene
  rw [foldl_scene_hasStatic sx sy objects ({}, [])]
  simp

/-- The walls of the returned handle, by construction of `runSimulation`. -/
theorem resultWalls_formula (inp : SimInput) :
    resultWalls (runSimulation inp)
      = if (buildScene (simScales inp).1 (simScales inp).2 inp.objects).1.hasStatic
          then []
          else boundaryWalls (simViewport inp).1 (simViewport inp).2 := rfl

theorem resultWidth_formula (inp : SimInput) :
    resultWidth (runSimulation inp) = (simViewport inp).1 := rfl

theorem resultHeight_formula (inp : SimInput) :
    resultHeight (runSimulation inp) = (simViewport inp).2 := rfl

/-- C4 counterexample: the scene `wallsCexInput` contains an object with
role `static` (an empty contour), yet the four boundary walls are added
anyway — refuting the claim's "no walls when a static object exists". -/
theorem boundary_walls_cex :
    (∃ obj ∈ wallsCexInput.objects, obj.role = "static")
      ∧ resultWalls (runSimulation wallsCexInput) = boundaryWalls 640 360
      ∧ (resultWalls (runSimulation wallsCexInput)).length = 4 := by
  refine ⟨⟨emptyStaticObj, by simp [wallsCexInput], rfl⟩,
    by with_unfolding_all rfl, by with_unfolding_all rfl⟩

/-- C4 amended: the four invisible static boundary walls, with thickness
`max(10, ⌊2% of the smaller viewport dimension⌋)`, are added exactly when
no object of the scene produces a static body, i.e. when no object has
role `static` together with a contour of at least 3 points; a static
object with a degenerate contour does not suppress the walls. -/
theorem boundary_walls_amended (inp : SimInput) :
    ((¬ ∃ obj ∈ inp.objects, obj.role = "static" ∧ 3 ≤ obj.contour.length) →
        resultWalls (runSimulation inp)
            = boundaryWalls (resultWidth (runSimulation inp))
                (resultHeight (runSimulation inp))
          ∧ (resultWalls (runSimulation inp)).length = 4
          ∧ ∀ wd ∈ resultWalls (runSimulation inp),
              wd.visible = false ∧ wd.isStatic = true
                ∧ (wd.rw = wallThickness (resultWidth (runSimulation inp))
                      (resultHeight (runSimulation inp))
                  ∨ wd.rh = wallThickness (resultWidth (runSimulation inp))
                      (resultHeight (runSimulation inp))))
      ∧ ((∃ obj ∈ inp.objects, obj.role = "static" ∧ 3 ≤ obj.contour.length) →
          resultWalls (runSimulation inp) = []) := by
  have hst := buildScene_hasStatic (simScales inp).1 (simScales inp).2 inp.objects
  constructor
  · intro h
    have hfalse : (buildScene (simScales inp).1 (simScales inp).2 inp.objects).1.hasStatic
        = false := by
      rcases Bool.eq_false_or_eq_true
        ((buildScene (simScales inp).1 (simScales inp).2 inp.objects).1.hasStatic) with hb | hb
      · exact absurd (hst.mp hb) h
      · exact hb
    rw [resultWalls_formula, hfalse, resultWidth_formula, resultHeight_formula]
    simp only [Bool.false_eq_true, if_false]
    refine ⟨by trivial, by trivial, ?_⟩
    intro wd hwd
    unfold boundaryWalls at hwd
    simp only [List.mem_cons, List.not_mem_nil, or_false] at hwd
    rcases hwd with rfl | rfl | rfl | rfl <;> simp
  · intro h
    rw [resultWalls_formula, hst.mpr h]
    rfl

/-- C4 witness: a dynamic-only scene gets the four walls; a scene with a
solid static floor gets none. -/
theorem boundary_walls_amended_witness :
    (resultWalls (runSimulation wallsWitnessInput)).length = 4
      ∧ resultWalls (runSimulation wallsStaticInput) = [] :=
  ⟨((boundary_walls_amended wallsWitnessInput).1 (by decide)).2.1,
   (boundary_walls_amended wallsStaticInput).2 ⟨solidStaticObj, by simp [wallsStaticInput], rfl, by decide⟩⟩

/-! ## Claim C5 — unresolved pivot degrades to a world anchor -/

/-- C5 counterexample: a pendulum constraint whose pivot name does not
resolve and whose subject name does not resolve either is skipped
entirely — no constraint with a world anchor is created. -/
theorem pivot_anchor_cex :
    alookup orphanPendulum.pivotName ([] : List (String × ℕ)) = none
      ∧ buildConstraint [] 1 1 orphanPendulum = COutcome.skipped :=
  ⟨rfl, by with_unfolding_all rfl⟩

/-- C5 amended: constraint construction is total (never throws).  When the
pivot name does not resolve, every constraint that is created at all gets
a fixed world anchor at the coordinate-mapped pivot point: unconditionally
on the spring paths, and provided the subject name resolves on the
pendulum/rope path; with an unresolved subject the pendulum/rope path
skips the constraint without error. -/
theorem pivot_anchor_amended (m : List (String × ℕ)) (sx sy : ℚ)
    (c : ConstraintSpec) (hpivot : alookup c.pivotName m = none) :
    (isSpringPath c = true →
        anchoredAtMappedPivot (buildConstraint m sx sy c)
          (scalePoint sx sy c.pivotPoint))
      ∧ (isSpringPath c = false →
          ((alookup c.bodyName m).isSome = true →
              anchoredAtMappedPivot (buildConstraint m sx sy c)
                (scalePoint sx sy c.pivotPoint))
            ∧ (alookup c.bodyName m = none →
                buildConstraint m sx sy c = COutcome.skipped)) := by
  constructor
  · intro hspring
    unfold buildConstraint
    rw [if_pos hspring]
    by_cases hk : c.springType = some "constraint"
    · simp [hk, anchoredAtMappedPivot, hpivot]
    · simp [hk, anchoredAtMappedPivot, hpivot]
  · intro hns
    constructor
    · intro hsubj
      rcases Option.isSome_iff_exists.mp hsubj with ⟨subj, hb⟩
      unfold buildConstraint
      rw [if_neg (by rw [hns]; exact Bool.false_ne_true), hb, hpivot]
      simp [anchoredAtMappedPivot]
    · intro hb
      unfold buildConstraint
      rw [if_neg (by rw [hns]; exact Bool.false_ne_true), hb]

/-- C5 witness: with the body `ball` registered and the pivot name
`ghostpivot` unresolved, a constraint with a fixed world anchor at the
mapped pivot point `(100, 50)` is created. -/
theorem pivot_anchor_amended_witness :
    alookup worldAnchorPendulum.pivotName [("ball", 3)] = none
      ∧ anchoredAtMappedPivot (buildConstraint [("ball", 3)] 1 1 worldAnchorPendulum)
          (scalePoint 1 1 worldAnchorPendulum.pivotPoint) := by
  refine ⟨by with_unfolding_all rfl, ?_⟩
  exact ((pivot_anchor_amended [("ball", 3)] 1 1 worldAnchorPendulum
      (by with_unfolding_all rfl)).2
    (by with_unfolding_all rfl)).1 (by with_unfolding_all rfl)

/-! ## Claim C6 — spring launcher slug and its removal -/

/-- C6: the launcher constraint from `(0,0)` toward `(100,0)` creates the
slug at `(90, 0)` — 90% of the way — with the documented low-mass
parameters; but the scheduled post-contact removal references `World`,
which is bound nowhere in the cleanup callback's scope chain, so the
delayed cleanup throws a `ReferenceError` and the slug and its spring
constraint are never removed from the world. -/
theorem spring_launcher_removal_bug :
    buildConstraint [("target", 1)] 1 1 launcherCex
        = COutcome.launcherCreated
            { pos := (90, 0), rw := 20, rh := 20, mass := 1 / 2
              restitution := 1 / 10, friction := 0, frictionAir := 0
              label := "spring_launcher_reduced" }
            { bodyA := none, pointA := some (0, 0), bodyB := none
              bodyBIsSlug := true, pointB := none, clen := some 80
              stiffness := 1 / 5, damping := some (1 / 20), visible := false }
      ∧ identInScopeAtCleanup "World" = false
      ∧ launcherCleanup [5, 7] 5 7 = JsEval.refError "World"
      ∧ worldAfterLauncherContact [5, 7] 5 7 = [5, 7] := by
  refine ⟨by with_unfolding_all rfl, by with_unfolding_all rfl,
    by with_unfolding_all rfl, by with_unfolding_all rfl⟩

/-! ## Claim C7 — start() never returns an error result -/

/-- C7 counterexample: invoked with no render surface and an empty object
list, `runSimulation` still returns a handle (with the object-count
summary), not an error result. -/
theorem start_error_cex :
    startCexInput.container = none ∧ startCexInput.objects = []
      ∧ isErrorResult (runSimulation startCexInput) = false
      ∧ resultSummary (runSimulation startCexInput) = "模拟运行中：对象数=0" := by
  refine ⟨rfl, rfl, rfl, by with_unfolding_all rfl⟩

/-- C7 amended: `runSimulation` never returns an error result: a missing
render surface falls back to the default `640 × 360` geometry and an empty
object list still yields a handle (with the four boundary walls, since no
static body exists). -/
theorem start_error_amended (inp : SimInput) :
    isErrorResult (runSimulation inp) = false
      ∧ (inp.objects = [] → (resultWalls (runSimulation inp)).length = 4) := by
  constructor
  · rfl
  · intro h
    have hfalse : (buildScene (simScales inp).1 (simScales inp).2 inp.objects).1.hasStatic
        = false := by
      rw [h]
      rfl
    rw [resultWalls_formula, hfalse]
    simp only [Bool.false_eq_true, if_false]
    rfl

/-- C7 witness: a concrete empty-scene start returns a handle with four
walls. -/
theorem start_error_amended_witness :
    isErrorResult (runSimulation startWitnessInput) = false
      ∧ (resultWalls (runSimulation startWitnessInput)).length = 4 :=
  ⟨(start_error_amended startWitnessInput).1,
   (start_error_amended startWitnessInput).2 rfl⟩

/-! ## Claim C9 — convex hull containment -/

theorem orient_swap (x y z : Pt) : orient x y z = -orient y x z := by
  simp only [orient, crossV, Prod.fst_sub, Prod.snd_sub]
  ring

/-- The three triangle orientations seen from `p` sum to the orientation
of the triangle itself. -/
theorem bary_sum (a b c p : Pt) :
    orient b c p + orient c a p + orient a b p = orient a b c := by
  simp only [orient, crossV, Prod.fst_sub, Prod.snd_sub]
  ring

/-- Barycentric combination identity: the orientation weights combine the
vertices into `orient a b c • p`. -/
theorem bary_comb (a b c p : Pt) :
    orient b c p • a + orient c a p • b + orient a b p • c
      = orient a b c • p := by
  apply Prod.ext
  · simp only [orient, crossV, Prod.fst_add, Prod.smul_fst, smul_eq_mul,
      Prod.fst_sub, Prod.snd_sub]
    ring
  · simp only [orient, crossV, Prod.snd_add, Prod.smul_snd, smul_eq_mul,
      Prod.fst_sub, Prod.snd_sub]
    ring

/-- A point expressed with three strictly positive weights lies in the
convex hull of the three generators. -/
theorem mem_convexHull_of_pos_weights (a b c p : Pt) (wa wb wc : ℚ)
    (ha : 0 < wa) (hb : 0 < wb) (hc : 0 < wc)
    (hcomb : wa • a + wb • b + wc • c = (wa + wb + wc) • p) :
    p ∈ convexHull ℚ ({a, b, c} : Set Pt) := by
  have hS : 0 < wa + wb + wc := by linarith
  have hcm := Finset.centerMass_mem_convexHull (t := (Finset.univ : Finset (Fin 3)))
    (w := ![wa, wb, wc]) (z := ![a, b, c]) (s := ({a, b, c} : Set Pt))
    (fun i _ => by
      fin_cases i
      · exact le_of_lt ha
      · exact le_of_lt hb
      · exact le_of_lt hc)
    (by
      rw [Fin.sum_univ_three]
      show (0 : ℚ) < wa + wb + wc
      linarith)
    (fun i _ => by
      fin_cases i
      · exact Set.mem_insert a _
      · exact Set.mem_insert_of_mem _ (Set.mem_insert b _)
      · exact Set.mem_insert_of_mem _ (Set.mem_insert_of_mem _ rfl))
  have heq : Finset.univ.centerMass ![wa, wb, wc] ![a, b, c] = p := by
    unfold Finset.centerMass
    rw [Fin.sum_univ_three, Fin.sum_univ_three]
    simp only [Matrix.cons_val_zero, Matrix.cons_val_one, Matrix.head_cons]
    rw [show ![wa, wb, wc] 2 = wc from rfl, show ![a, b, c] 2 = c from rfl]
    rw [hcomb, inv_smul_smul₀ (ne_of_gt hS)]
  rw [heq] at hcm
  exact hcm

/-- All three orientations strictly positive places `p` in the hull of the
triangle. -/
theorem mem_convexHull_of_orient_pos (a b c p : Pt)
    (h1 : 0 < orient a b p) (h2 : 0 < orient b c p) (h3 : 0 < orient c a p) :
    p ∈ convexHull ℚ ({a, b, c} : Set Pt) := by
  apply mem_convexHull_of_pos_weights a b c p (orient b c p) (orient c a p)
    (orient a b p) h2 h3 h1
  rw [bary_sum a b c p]
  exact bary_comb a b c p

/-- Soundness of the strict point-in-triangle test. -/
theorem inTriStrict_sound (a b c p : Pt) (h : inTriStrict a b c p = true) :
    p ∈ convexHull ℚ ({a, b, c} : Set Pt) := by
  unfold inTriStrict at h
  rw [Bool.or_eq_true, Bool.and_eq_true, Bool.and_eq_true, Bool.and_eq_true,
    Bool.and_eq_true] at h
  rcases h with ⟨⟨h1, h2⟩, h3⟩ | ⟨⟨h1, h2⟩, h3⟩
  · exact mem_convexHull_of_orient_pos a b c p (of_decide_eq_true h1)
      (of_decide_eq_true h2) (of_decide_eq_true h3)
  · have h1q := of_decide_eq_true h1
    have h2q := of_decide_eq_true h2
    have h3q := of_decide_eq_true h3
    have hset : ({b, a, c} : Set Pt) = ({a, b, c} : Set Pt) := by
      ext x
      simp only [Set.mem_insert_iff, Set.mem_singleton_iff]
      tauto
    rw [← hset]
    apply mem_convexHull_of_orient_pos b a c p
    · rw [orient_swap]
      linarith
    · rw [orient_swap]
      linarith
    · rw [orient_swap]
      linarith

theorem isInsideSome_sound (S : List Pt) (p : Pt) (h : isInsideSome S p = true) :
    p ∈ convexHull ℚ {x | x ∈ S} := by
  unfold isInsideSome at h
  rcases List.any_eq_true.mp h with ⟨a, ha, h2⟩
  rcases List.any_eq_true.mp h2 with ⟨b, hb, h3⟩
  rcases List.any_eq_true.mp h3 with ⟨c, hc, h4⟩
  refine convexHull_mono ?_ (inTriStrict_sound a b c p h4)
  intro x hx
  rcases hx with rfl | rfl | rfl
  · exact ha
  · exact hb
  · exact hc

/-- Inserting a point already in the hull leaves the hull unchanged. -/
theorem convexHull_insert_mem_eq {s : Set Pt} {x : Pt}
    (hx : x ∈ convexHull ℚ s) :
    convexHull ℚ (insert x s) = convexHull ℚ s := by
  refine subset_antisymm ?_ (convexHull_mono (Set.subset_insert x s))
  apply convexHull_min ?_ (convex_convexHull ℚ s)
  rintro y (rfl | hy)
  · exact hx
  · exact subset_convexHull ℚ s hy

theorem dropInner_subset : ∀ (n : ℕ) (l : List Pt), ∀ x ∈ dropInner n l, x ∈ l := by
  intro n
  induction n with
  | zero => intro l x hx; exact hx
  | succ n ih =>
    intro l x hx
    unfold dropInner at hx
    cases hf : l.find? (fun q => isInsideSome (l.erase q) q) with
    | none =>
      rw [hf] at hx
      exact hx
    | some q =>
      rw [hf] at hx
      exact (l.erase_subset q) (ih (l.erase q) x hx)

/-- Discarding strictly interior points never changes the convex hull. -/
theorem dropInner_hull : ∀ (n : ℕ) (l : List Pt),
    convexHull ℚ {x | x ∈ dropInner n l} = convexHull ℚ {x | x ∈ l} := by
  intro n
  induction n with
  | zero => intro l; rfl
  | succ n ih =>
    intro l
    unfold dropInner
    cases hf : l.find? (fun q => isInsideSome (l.erase q) q) with
    | none => rfl
    | some q =>
      have hq0 := List.find?_some hf
      have hq : isInsideSome (l.erase q) q = true := hq0
      have hmem : q ∈ convexHull ℚ {x | x ∈ l.erase q} := isInsideSome_sound _ _ hq
      rw [ih (l.erase q)]
      apply subset_antisymm
      · exact convexHull_mono (fun x hx => List.mem_of_mem_erase hx)
      · have hsub : {x | x ∈ l} ⊆ insert q {x | x ∈ l.erase q} := by
          intro y hy
          by_cases hyq : y = q
          · exact Or.inl hyq
          · exact Or.inr ((List.mem_erase_of_ne hyq).mpr hy)
        calc convexHull ℚ {x | x ∈ l}
            ⊆ convexHull ℚ (insert q {x | x ∈ l.erase q}) := convexHull_mono hsub
          _ = convexHull ℚ {x | x ∈ l.erase q} := convexHull_insert_mem_eq hmem

theorem hullPoints_subset (l : List Pt) : ∀ x ∈ hullPoints l, x ∈ l :=
  dropInner_subset l.length l

/-- Every input point lies in the convex hull spanned by the (unrounded)
hull vertices. -/
theorem hullPoints_containment (l : List Pt) (p : Pt) (hp : p ∈ l) :
    p ∈ convexHull ℚ {x | x ∈ hullPoints l} := by
  unfold hullPoints
  rw [dropInner_hull]
  exact subset_convexHull ℚ _ hp

theorem roundPt_int (p : Pt) (h : isIntPt p = true) : roundPt p = p := by
  unfold isIntPt at h
  simp only [Bool.and_eq_true, beq_iff_eq] at h
  obtain ⟨h1, h2⟩ := h
  have e1 : ((p.1.num : ℚ)) = p.1 := (Rat.den_eq_one_iff p.1).mp h1
  have e2 : ((p.2.num : ℚ)) = p.2 := (Rat.den_eq_one_iff p.2).mp h2
  unfold roundPt
  rw [← e1, ← e2, round_intCast, round_intCast]
  exact Prod.ext e1 e2

/-- C9 counterexample: for the input set `hullCexPts` the hull vertex
`(5, 2/5)` is rounded down onto the base segment, and the input point
`(5, 2/5)` lies strictly outside the rounded hull (everything in its
convex hull has `y = 0`). -/
theorem hull_containment_cex :
    ((5, 2 / 5) : Pt) ∈ hullCexPts
      ∧ ((5, 2 / 5) : Pt) ∉ convexHull ℚ {x | x ∈ toConvexHull hullCexPts} := by
  constructor
  · simp [hullCexPts]
  · intro hmem
    have hch : toConvexHull hullCexPts = [(0, 0), (10, 0), (5, 0)] := by
      with_unfolding_all rfl
    rw [hch] at hmem
    have hsub : {x : Pt | x ∈ [((0 : ℚ), (0 : ℚ)), (10, 0), (5, 0)]}
        ⊆ {x : Pt | x.2 = 0} := by
      intro x hx
      simp only [List.mem_cons, List.not_mem_nil, or_false, Set.mem_setOf_eq] at hx ⊢
      rcases hx with rfl | rfl | rfl <;> rfl
    have hconv : Convex ℚ {x : Pt | x.2 = 0} := by
      intro x hx y hy a b _ _ _
      simp only [Set.mem_setOf_eq] at hx hy ⊢
      simp [Prod.snd_add, Prod.smul_snd, hx, hy]
    have hy0 := convexHull_min hsub hconv hmem
    simp only [Set.mem_setOf_eq] at hy0
    norm_num at hy0

/-- C9 amended: for point sets whose coordinates are all integers — the
only inputs the engine ever produces, since contours are rounded during
coordinate scaling — every input point lies on or inside the computed
convex hull even after the hull vertices are rounded (the rounding is the
identity there); for fractional inputs the rounding can move a hull vertex
inward and break containment, as `hull_containment_cex` shows. -/
theorem hull_containment_amended (l : List Pt)
    (hint : ∀ p ∈ l, isIntPt p = true) :
    ∀ p ∈ l, p ∈ convexHull ℚ {x | x ∈ toConvexHull l} := by
  intro p hp
  have hmap : toConvexHull l = hullPoints l := by
    unfold toConvexHull
    rw [show (hullPoints l).map roundPt = (hullPoints l).map id from
      List.map_congr_left fun x hx => roundPt_int x (hint x (hullPoints_subset l x hx)),
      List.map_id]
  rw [hmap]
  exact hullPoints_containment l p hp

/-- C9 witness: an integer point set with the interior point `(1, 1)`,
which lies in the convex hull of the rounded hull vertices. -/
theorem hull_containment_amended_witness :
    hullIntPts.all isIntPt = true
      ∧ ((1, 1) : Pt) ∈ convexHull ℚ {x | x ∈ toConvexHull hullIntPts} := by
  constructor
  · with_unfolding_all rfl
  · exact hull_containment_amended hullIntPts
      (by
        intro p hp
        fin_cases hp <;> with_unfolding_all rfl)
      (1, 1) (by norm_num [hullIntPts])

end PhysicsSim
